import Mathlib

/-!
Shallow embedding of the healthdatabase bulk-import reconciliation engine.

The repository documents its data model and import pipeline (README,
architecture docs, test notes); the pipeline's Python modules themselves are
not part of the documentation tree.  Definitions below whose doc comment
starts with `Modelled from the spec:` embed those missing components
faithfully from the specification's wording; the schema facts (unique
constraints, column defaults, validation rules) come from the CREATE TABLE
declarations and validation rules reproduced in the repository's docs.
-/

namespace HealthDB

/-- A normalized health record: `user_id`, the temporal key (`date` for daily
types, `start_time` for sport, encoded as a natural number), the originating
`data_source` tag, and the non-key measurement payload collapsed to a single
integer field. -/
structure Record where
  user_id : Nat
  key_time : Nat
  data_source : String
  payload : Int
deriving DecidableEq

/-- The composite identity key `(user_id, date-or-start_time, data_source)`. -/
def identityKey (r : Record) : Nat × Nat × String :=
  (r.user_id, r.key_time, r.data_source)

/-- Persisted storage: the `users` table (list of user ids) and one table of
typed records. -/
structure Storage where
  users : List Nat
  rows : List Record
deriving DecidableEq

/-- The identity keys of a list of stored rows, in order. -/
def rowKeys (rows : List Record) : List (Nat × Nat × String) :=
  rows.map identityKey

/-- Identity-uniqueness invariant: no two stored records share an identity
key. -/
def UniqueKeys (rows : List Record) : Prop :=
  (rowKeys rows).Nodup

instance (rows : List Record) : Decidable (UniqueKeys rows) :=
  inferInstanceAs (Decidable ((rowKeys rows).Nodup))

/-- Modelled from the spec: one upsert against the stored rows (the `update`
outcome applied by the writer) — a record whose identity key is already
present replaces the matching stored record wholesale; otherwise it is
appended as a new row. -/
def upsertRow (rows : List Record) (r : Record) : List Record :=
  if identityKey r ∈ rowKeys rows then
    rows.map (fun s => if identityKey s = identityKey r then r else s)
  else
    rows ++ [r]

/-- Sequential upsert of a list of records, later records seeing the effect
of earlier ones. -/
def upsertMany (rows : List Record) (rs : List Record) : List Record :=
  rs.foldl upsertRow rows

/-- `DuplicateReport`: partition of the incoming records into genuinely-new
records and pairs (incoming, stored) that collide on the identity key. -/
structure DuplicateReport where
  newRecords : List Record
  existing : List (Record × Record)
deriving DecidableEq

/-- Modelled from the spec: the Duplicate Detector — computes identity keys
of the incoming records and partitions them against the already-persisted
rows. -/
def check (rows : List Record) (records : List Record) : DuplicateReport :=
  { newRecords := records.filter (fun r => decide (identityKey r ∉ rowKeys rows))
    existing := records.filterMap (fun r =>
      (rows.find? (fun s => decide (identityKey s = identityKey r))).map (fun s => (r, s))) }

/-- Duplicate-resolution strategy. -/
inductive Strategy where
  | update
  | skip
  | error
deriving DecidableEq

/-- Error taxonomy of the import pipeline. -/
inductive ImportError where
  | DuplicateConflictError
  | ReferentialError
  | StorageContentionError
deriving DecidableEq

/-- Modelled from the spec: the Conflict Resolver — maps the duplicate report
to the final write-set, or aborts with `DuplicateConflictError` under the
`error` strategy when any collision is present. -/
def resolve (strategy : Strategy) (rep : DuplicateReport) (records : List Record) :
    Except ImportError (List Record) :=
  match strategy with
  | .update => .ok records
  | .skip => .ok rep.newRecords
  | .error => if rep.existing.isEmpty then .ok records else .error .DuplicateConflictError

/-- Splits a list into consecutive chunks, consuming at least one element per
step; `fuel` bounds the recursion and is instantiated with the list length. -/
def chunkListAux {α : Type} (fuel n : Nat) (l : List α) : List (List α) :=
  match fuel, l with
  | _, [] => []
  | 0, l => [l]
  | fuel + 1, x :: xs => (x :: xs.take (n - 1)) :: chunkListAux fuel n (xs.drop (n - 1))

/-- Modelled from the spec: the Batch Writer splits the write-set into chunks
of at most `batch_size` records. -/
def chunkList {α : Type} (n : Nat) (l : List α) : List (List α) :=
  chunkListAux l.length n l

/-- A chunk passes the referential precondition when every record's `user_id`
already exists in the users table. -/
def chunkOK (users : List Nat) (c : List Record) : Bool :=
  c.all (fun r => decide (r.user_id ∈ users))

/-- Identity key of the first record of a chunk violating the referential
precondition; reported as context with a chunk failure. -/
def firstBadKey (users : List Nat) (c : List Record) : Nat × Nat × String :=
  match c.find? (fun r => !decide (r.user_id ∈ users)) with
  | some r => identityKey r
  | none => (0, 0, "")

/-- Number of records of a write list whose key is absent at the moment they
are applied (the writer's `inserted` tally; the rest count as updates). -/
def countNew (rows : List Record) : List Record → Nat
  | [] => 0
  | r :: rest =>
    (if identityKey r ∈ rowKeys rows then 0 else 1) + countNew (upsertRow rows r) rest

/-- Outcome of the Batch Writer: final rows, insert/update tallies and, when
a chunk failed, its index together with the first failing record's identity
key. -/
structure WriteResult where
  rows : List Record
  inserted : Nat
  updated : Nat
  failed : Option (Nat × (Nat × Nat × String))
deriving DecidableEq

/-- Modelled from the spec: the Batch Writer — each chunk commits atomically;
a chunk violating the referential precondition is aborted with its context,
earlier chunks remain committed and later chunks are not attempted. -/
def writeChunksFrom (users : List Nat) (i : Nat) (rows : List Record) :
    List (List Record) → WriteResult
  | [] => ⟨rows, 0, 0, none⟩
  | c :: cs =>
    if chunkOK users c then
      let wr := writeChunksFrom users (i + 1) (upsertMany rows c) cs
      ⟨wr.rows, countNew rows c + wr.inserted, (c.length - countNew rows c) + wr.updated,
        wr.failed⟩
    else
      ⟨rows, 0, 0, some (i, firstBadKey users c)⟩

/-- Import statistics returned by every run; `elapsed` (wall-clock time) is
not modelled and is always zero here. -/
structure ImportStats where
  processed : Nat
  inserted : Nat
  updated : Nat
  skipped : Nat
  errors : Nat
  elapsed : Nat
deriving DecidableEq

/-- One import operation: the file's normalized records together with the
configured strategy, batch size and dry-run flag. -/
structure ImportOp where
  records : List Record
  strategy : Strategy
  batchSize : Nat
  dryRun : Bool
deriving DecidableEq

/-- Result of importing one file: the resulting storage, the statistics, and
the surfaced error, if any. -/
structure FileResult where
  storage : Storage
  stats : ImportStats
  err : Option ImportError
deriving DecidableEq

/-- Modelled from the spec: one file's import — detect duplicates against the
persisted rows, resolve per the configured strategy, then batch-write; under
`dry_run` every stage runs identically but the computed rows are discarded
(no transaction commit is performed). -/
def runImport (st : Storage) (op : ImportOp) : FileResult :=
  match resolve op.strategy (check st.rows op.records) op.records with
  | .error e =>
    ⟨st, ⟨0, 0, 0, 0, (check st.rows op.records).existing.length, 0⟩, some e⟩
  | .ok ws =>
    ⟨if op.dryRun then st
       else ⟨st.users, (writeChunksFrom st.users 0 st.rows (chunkList op.batchSize ws)).rows⟩,
      ⟨op.records.length,
        (writeChunksFrom st.users 0 st.rows (chunkList op.batchSize ws)).inserted,
        (writeChunksFrom st.users 0 st.rows (chunkList op.batchSize ws)).updated,
        op.records.length - ws.length,
        if (writeChunksFrom st.users 0 st.rows (chunkList op.batchSize ws)).failed.isSome
          then 1 else 0,
        0⟩,
      if (writeChunksFrom st.users 0 st.rows (chunkList op.batchSize ws)).failed.isSome
        then some .ReferentialError else none⟩

/-- Sequential multi-file run: each file's import sees the storage produced
by the previous one; per-file statistics are collected in order. -/
def runImports (st : Storage) : List ImportOp → Storage × List ImportStats
  | [] => (st, [])
  | op :: ops =>
    ((runImports (runImport st op).storage ops).1,
      (runImport st op).stats :: (runImports (runImport st op).storage ops).2)

/-- Raw Zepp sport row as parsed from a CSV line: the required columns may be
absent, numeric measurements are exact integers (the sentinel `-1.0` is the
integer `-1`). -/
structure RawSport where
  user_id : Option Nat
  start_time : Option Nat
  sport_type : Option Nat
  duration_seconds : Int
  distance_meters : Int
  calories : Int
  avg_pace_per_meter : Int
  max_pace_per_meter : Int
  min_pace_per_meter : Int
deriving DecidableEq

/-- A validated sport record ready for storage. -/
structure SportRecord where
  user_id : Nat
  start_time : Nat
  sport_type : Nat
  duration_seconds : Int
  distance_meters : Int
  calories : Int
  avg_pace_per_meter : Int
  max_pace_per_meter : Int
  min_pace_per_meter : Int
deriving DecidableEq

/-- Modelled from the spec: sentinel scrubbing in the Zepp sport transform —
an invalid pace value `-1.0` is converted to `0.0`. -/
def scrubPace (x : Int) : Int := if x = -1 then 0 else x

/-- Modelled from the spec: `validate_and_coerce` clamps a negative numeric
value to zero rather than rejecting the record. -/
def clampNonneg (x : Int) : Int := max x 0

/-- Validation failure for a raw row that cannot be coerced to the schema. -/
inductive ValidationError where
  | missingField
deriving DecidableEq

/-- Modelled from the spec: transformation and validation of a raw sport row —
pace sentinels are scrubbed, required fields must be present, and numeric
measurements are clamped to be non-negative instead of being rejected. -/
def validate_and_coerce (raw : RawSport) : Except ValidationError SportRecord :=
  match raw.user_id, raw.start_time, raw.sport_type with
  | some u, some t, some ty =>
    .ok ⟨u, t, ty,
      clampNonneg raw.duration_seconds,
      clampNonneg raw.distance_meters,
      clampNonneg raw.calories,
      clampNonneg (scrubPace raw.avg_pace_per_meter),
      clampNonneg (scrubPace raw.max_pace_per_meter),
      clampNonneg (scrubPace raw.min_pace_per_meter)⟩
  | _, _, _ => .error .missingField

/-- The `sport_data.data_source` column default, from the CREATE TABLE
declaration in the docs: `data_source TEXT NOT NULL DEFAULT 'zepp'`. -/
def sportDataSourceDefault : String := "zepp"

/-- Modelled from the spec: writing a sport row — when no explicit
`data_source` value is supplied, the SQLite column default applies. -/
def mkSportRecord (u : Nat) (t : Nat) (p : Int) (src : Option String) : Record :=
  ⟨u, t, src.getD sportDataSourceDefault, p⟩

/-- The first scenario file `F1` of §8: records dated 2024-01-15 and
2024-01-16 with payloads `p1`, `p2`. -/
def scenarioF1 (u : Nat) (s : String) (p1 p2 : Int) : List Record :=
  [⟨u, 20240115, s, p1⟩, ⟨u, 20240116, s, p2⟩]

/-- The second scenario file `F2` of §8: records dated 2024-01-16 and
2024-01-17 with payloads `p3`, `p4`. -/
def scenarioF2 (u : Nat) (s : String) (p3 p4 : Int) : List Record :=
  [⟨u, 20240116, s, p3⟩, ⟨u, 20240117, s, p4⟩]

/-! ### Lemmas about `upsertRow` and `upsertMany` -/

theorem rowKeys_upsertRow_of_mem {rows : List Record} {r : Record}
    (h : identityKey r ∈ rowKeys rows) : rowKeys (upsertRow rows r) = rowKeys rows := by
  unfold upsertRow
  rw [if_pos h]
  unfold rowKeys
  rw [List.map_map]
  refine List.map_congr_left ?_
  intro s _
  simp only [Function.comp_apply]
  split
  · next heq => exact heq.symm
  · rfl

theorem rowKeys_upsertRow_of_not_mem {rows : List Record} {r : Record}
    (h : identityKey r ∉ rowKeys rows) :
    rowKeys (upsertRow rows r) = rowKeys rows ++ [identityKey r] := by
  unfold upsertRow
  rw [if_neg h]
  unfold rowKeys
  rw [List.map_append]
  rfl

theorem length_upsertRow_of_mem {rows : List Record} {r : Record}
    (h : identityKey r ∈ rowKeys rows) : (upsertRow rows r).length = rows.length := by
  unfold upsertRow
  rw [if_pos h, List.length_map]

theorem mem_rowKeys_upsertRow_self (rows : List Record) (r : Record) :
    identityKey r ∈ rowKeys (upsertRow rows r) := by
  by_cases h : identityKey r ∈ rowKeys rows
  · rw [rowKeys_upsertRow_of_mem h]; exact h
  · rw [rowKeys_upsertRow_of_not_mem h]; exact List.mem_append_right _ (List.mem_singleton.2 rfl)

theorem mem_rowKeys_upsertRow_mono {rows : List Record} {k : Nat × Nat × String}
    (r : Record) (h : k ∈ rowKeys rows) : k ∈ rowKeys (upsertRow rows r) := by
  by_cases hm : identityKey r ∈ rowKeys rows
  · rw [rowKeys_upsertRow_of_mem hm]; exact h
  · rw [rowKeys_upsertRow_of_not_mem hm]; exact List.mem_append_left _ h

theorem uniqueKeys_upsertRow {rows : List Record} (r : Record)
    (h : UniqueKeys rows) : UniqueKeys (upsertRow rows r) := by
  by_cases hm : identityKey r ∈ rowKeys rows
  · unfold UniqueKeys
    rw [rowKeys_upsertRow_of_mem hm]
    exact h
  · unfold UniqueKeys
    rw [rowKeys_upsertRow_of_not_mem hm]
    simpa [List.nodup_append] using And.intro h hm

theorem uniqueKeys_upsertMany {rs : List Record} :
    ∀ {rows : List Record}, UniqueKeys rows → UniqueKeys (upsertMany rows rs) := by
  induction rs with
  | nil => intro rows h; exact h
  | cons r rest ih =>
    intro rows h
    exact ih (uniqueKeys_upsertRow r h)

theorem mem_rowKeys_upsertMany_mono {rs : List Record} :
    ∀ {rows : List Record} {k : Nat × Nat × String},
      k ∈ rowKeys rows → k ∈ rowKeys (upsertMany rows rs) := by
  induction rs with
  | nil => intro rows k h; exact h
  | cons r rest ih =>
    intro rows k h
    exact ih (mem_rowKeys_upsertRow_mono r h)

theorem mem_rowKeys_upsertMany_of_mem {rs : List Record} :
    ∀ {rows : List Record} {r : Record}, r ∈ rs →
      identityKey r ∈ rowKeys (upsertMany rows rs) := by
  induction rs with
  | nil => intro rows r h; cases h
  | cons a rest ih =>
    intro rows r h
    rcases List.mem_cons.1 h with h | h
    · subst h
      show identityKey r ∈ rowKeys (upsertMany (upsertRow rows r) rest)
      exact mem_rowKeys_upsertMany_mono (mem_rowKeys_upsertRow_self rows r)
    · exact ih h

theorem length_upsertMany_of_mem {rs : List Record} :
    ∀ {rows : List Record}, (∀ r ∈ rs, identityKey r ∈ rowKeys rows) →
      (upsertMany rows rs).length = rows.length := by
  induction rs with
  | nil => intro rows _; rfl
  | cons a rest ih =>
    intro rows h
    have ha : identityKey a ∈ rowKeys rows := h a (List.mem_cons_self a rest)
    have hkeys : rowKeys (upsertRow rows a) = rowKeys rows := rowKeys_upsertRow_of_mem ha
    have hrest : ∀ r ∈ rest, identityKey r ∈ rowKeys (upsertRow rows a) := by
      intro r hr
      rw [hkeys]
      exact h r (List.mem_cons_of_mem a hr)
    calc (upsertMany rows (a :: rest)).length
        = (upsertMany (upsertRow rows a) rest).length := rfl
      _ = (upsertRow rows a).length := ih hrest
      _ = rows.length := length_upsertRow_of_mem ha

/-! ### Lemmas about chunking and the Batch Writer -/

theorem chunkListAux_flatten {α : Type} (n : Nat) :
    ∀ (fuel : Nat) (l : List α), l.length ≤ fuel → (chunkListAux fuel n l).flatten = l := by
  intro fuel
  induction fuel with
  | zero =>
    intro l hl
    have : l = [] := List.length_eq_zero.1 (Nat.le_zero.1 hl)
    subst this
    rfl
  | succ fuel ih =>
    intro l hl
    match l with
    | [] => rfl
    | x :: xs =>
      have hdrop : (xs.drop (n - 1)).length ≤ fuel := by
        rw [List.length_drop]
        have : xs.length ≤ fuel := Nat.le_of_succ_le_succ hl
        omega
      calc (chunkListAux (fuel + 1) n (x :: xs)).flatten
          = (x :: xs.take (n - 1)) ++ (chunkListAux fuel n (xs.drop (n - 1))).flatten := rfl
        _ = (x :: xs.take (n - 1)) ++ xs.drop (n - 1) := by rw [ih _ hdrop]
        _ = x :: xs := by rw [List.cons_append, List.take_append_drop]

theorem chunkList_flatten {α : Type} (n : Nat) (l : List α) :
    (chunkList n l).flatten = l :=
  chunkListAux_flatten n l.length l (Nat.le_refl _)

theorem length_le_of_mem_chunkListAux {α : Type} {n : Nat} (hn : 0 < n) :
    ∀ (fuel : Nat) (l : List α), l.length ≤ fuel →
      ∀ c ∈ chunkListAux fuel n l, c.length ≤ n := by
  intro fuel
  induction fuel with
  | zero =>
    intro l hl c hc
    have : l = [] := List.length_eq_zero.1 (Nat.le_zero.1 hl)
    subst this
    cases hc
  | succ fuel ih =>
    intro l hl c hc
    match l with
    | [] => cases hc
    | x :: xs =>
      have hdrop : (xs.drop (n - 1)).length ≤ fuel := by
        rw [List.length_drop]
        have : xs.length ≤ fuel := Nat.le_of_succ_le_succ hl
        omega
      rcases List.mem_cons.1 hc with h | h
      · subst h
        simp only [List.length_cons, List.length_take]
        omega
      · exact ih _ hdrop c h

theorem length_le_of_mem_chunkList {α : Type} {n : Nat} (hn : 0 < n) (l : List α) :
    ∀ c ∈ chunkList n l, c.length ≤ n :=
  length_le_of_mem_chunkListAux hn l.length l (Nat.le_refl _)

theorem foldl_upsertMany_flatten (cs : List (List Record)) (rows : List Record) :
    cs.foldl upsertMany rows = upsertMany rows cs.flatten := by
  show cs.foldl upsertMany rows = cs.flatten.foldl upsertRow rows
  rw [List.foldl_flatten]
  rfl

theorem uniqueKeys_writeChunksFrom {cs : List (List Record)} {users : List Nat} :
    ∀ (i : Nat) {rows : List Record}, UniqueKeys rows →
      UniqueKeys (writeChunksFrom users i rows cs).rows := by
  induction cs with
  | nil => intro i rows h; exact h
  | cons c cs ih =>
    intro i rows h
    unfold writeChunksFrom
    by_cases hc : chunkOK users c = true
    · rw [if_pos hc]
      exact ih (i + 1) (uniqueKeys_upsertMany h)
    · rw [if_neg hc]
      exact h

theorem writeChunksFrom_of_ok (users : List Nat) {cs : List (List Record)} :
    ∀ (i : Nat) (rows : List Record), (∀ c ∈ cs, chunkOK users c = true) →
      (writeChunksFrom users i rows cs).rows = cs.foldl upsertMany rows ∧
      (writeChunksFrom users i rows cs).failed = none := by
  induction cs with
  | nil => intro i rows _; exact ⟨rfl, rfl⟩
  | cons c cs ih =>
    intro i rows h
    have hc : chunkOK users c = true := h c (List.mem_cons_self c cs)
    have hrest : ∀ c' ∈ cs, chunkOK users c' = true :=
      fun c' hc' => h c' (List.mem_cons_of_mem c hc')
    unfold writeChunksFrom
    rw [if_pos hc]
    exact ⟨(ih (i + 1) (upsertMany rows c) hrest).1, (ih (i + 1) (upsertMany rows c) hrest).2⟩

theorem writeChunksFrom_stop {users : List Nat} :
    ∀ (k : Nat) (cs : List (List Record)) (i : Nat) (rows : List Record),
      k < cs.length →
      (∀ j, j < k → chunkOK users (cs.getD j []) = true) →
      chunkOK users (cs.getD k []) = false →
      (writeChunksFrom users i rows cs).rows = (cs.take k).foldl upsertMany rows ∧
      (writeChunksFrom users i rows cs).failed
        = some (i + k, firstBadKey users (cs.getD k [])) := by
  intro k
  induction k with
  | zero =>
    intro cs i rows hk hok hfail
    match cs with
    | [] => exact absurd hk (by simp)
    | c :: cs =>
      have hfail' : chunkOK users c = false := by simpa using hfail
      unfold writeChunksFrom
      rw [if_neg (by simp [hfail'])]
      exact ⟨rfl, by simp⟩
  | succ k ih =>
    intro cs i rows hk hok hfail
    match cs with
    | [] => exact absurd hk (by simp)
    | c :: cs =>
      have hc : chunkOK users c = true := by
        have := hok 0 (Nat.succ_pos k)
        simpa using this
      have hok' : ∀ j, j < k → chunkOK users (cs.getD j []) = true := by
        intro j hj
        have := hok (j + 1) (Nat.succ_lt_succ hj)
        simpa using this
      have hfail' : chunkOK users (cs.getD k []) = false := by simpa using hfail
      have hk' : k < cs.length := Nat.lt_of_succ_lt_succ hk
      unfold writeChunksFrom
      rw [if_pos hc]
      refine ⟨(ih cs (i + 1) (upsertMany rows c) hk' hok' hfail').1, ?_⟩
      have h2 := (ih cs (i + 1) (upsertMany rows c) hk' hok' hfail').2
      show (writeChunksFrom users (i + 1) (upsertMany rows c) cs).failed = _
      rw [h2]
      simp only [List.getD_cons_succ]
      have harith : i + 1 + k = i + (k + 1) := by omega
      rw [harith]

/-! ### Lemmas about `runImport` and `runImports` -/

theorem runImport_users (st : Storage) (op : ImportOp) :
    (runImport st op).storage.users = st.users := by
  unfold runImport
  cases h : resolve op.strategy (check st.rows op.records) op.records with
  | error e => rfl
  | ok ws => cases hd : op.dryRun <;> simp

theorem runImport_dryRun_storage (st : Storage) (op : ImportOp) (hd : op.dryRun = true) :
    (runImport st op).storage = st := by
  unfold runImport
  cases h : resolve op.strategy (check st.rows op.records) op.records with
  | error e => rfl
  | ok ws => simp [hd]

theorem uniqueKeys_runImport (st : Storage) (op : ImportOp) (h : UniqueKeys st.rows) :
    UniqueKeys (runImport st op).storage.rows := by
  unfold runImport
  cases hr : resolve op.strategy (check st.rows op.records) op.records with
  | error e => exact h
  | ok ws =>
    cases hd : op.dryRun with
    | true => simpa using h
    | false => simpa using uniqueKeys_writeChunksFrom 0 h

theorem chunkOK_of_all {users : List Nat} {records : List Record} (bs : Nat)
    (h : ∀ r ∈ records, r.user_id ∈ users) :
    ∀ c ∈ chunkList bs records, chunkOK users c = true := by
  intro c hc
  unfold chunkOK
  rw [List.all_eq_true]
  intro r hr
  have hmem : r ∈ records := by
    rw [← chunkList_flatten bs records]
    exact List.mem_flatten.2 ⟨c, hc, hr⟩
  simpa using h r hmem

theorem runImport_update_ok (st : Storage) (records : List Record) (bs : Nat)
    (h : ∀ r ∈ records, r.user_id ∈ st.users) :
    runImport st ⟨records, .update, bs, false⟩
      = ⟨⟨st.users, upsertMany st.rows records⟩,
          ⟨records.length,
            (writeChunksFrom st.users 0 st.rows (chunkList bs records)).inserted,
            (writeChunksFrom st.users 0 st.rows (chunkList bs records)).updated,
            records.length - records.length, 0, 0⟩, none⟩ := by
  have hok := writeChunksFrom_of_ok st.users 0 st.rows (chunkOK_of_all bs h)
  have hrows : (writeChunksFrom st.users 0 st.rows (chunkList bs records)).rows
      = upsertMany st.rows records := by
    rw [hok.1, foldl_upsertMany_flatten, chunkList_flatten]
  simp only [runImport, resolve]
  rw [hrows, hok.2]
  simp

theorem existing_eq_nil_iff (rows records : List Record) :
    (check rows records).existing = [] ↔ ∀ r ∈ records, identityKey r ∉ rowKeys rows := by
  unfold check
  simp only [List.filterMap_eq_nil_iff, Option.map_eq_none', List.find?_eq_none,
    decide_eq_true_eq]
  constructor
  · intro h r hr hk
    rcases List.mem_map.1 hk with ⟨s, hs, hks⟩
    exact h r hr s hs hks
  · intro h r hr s hs heq
    exact h r hr (List.mem_map.2 ⟨s, hs, heq⟩)

theorem resolve_error_of_collision {rep : DuplicateReport} (records : List Record)
    (h : rep.existing ≠ []) :
    resolve .error rep records = .error .DuplicateConflictError := by
  unfold resolve
  rw [if_neg]
  simpa [List.isEmpty_iff] using h

theorem runImport_error_of_collision (st : Storage) (records : List Record)
    (bs : Nat) (dr : Bool)
    (hcol : ∃ r ∈ records, identityKey r ∈ rowKeys st.rows) :
    runImport st ⟨records, .error, bs, dr⟩
      = ⟨st, ⟨0, 0, 0, 0, (check st.rows records).existing.length, 0⟩,
          some .DuplicateConflictError⟩ := by
  have hne : (check st.rows records).existing ≠ [] := by
    intro hnil
    rcases hcol with ⟨r, hr, hk⟩
    exact (existing_eq_nil_iff st.rows records).1 hnil r hr hk
  simp only [runImport]
  rw [resolve_error_of_collision records hne]

theorem runImports_append (st : Storage) (l1 l2 : List ImportOp) :
    runImports st (l1 ++ l2)
      = ((runImports (runImports st l1).1 l2).1,
          (runImports st l1).2 ++ (runImports (runImports st l1).1 l2).2) := by
  induction l1 generalizing st with
  | nil => rfl
  | cons op ops ih =>
    show ((runImports (runImport st op).storage (ops ++ l2)).1,
        (runImport st op).stats :: (runImports (runImport st op).storage (ops ++ l2)).2) = _
    rw [ih (runImport st op).storage]
    rfl

theorem uniqueKeys_runImports (ops : List ImportOp) :
    ∀ (st : Storage), UniqueKeys st.rows → UniqueKeys (runImports st ops).1.rows := by
  induction ops with
  | nil => intro st h; exact h
  | cons op ops ih =>
    intro st h
    exact ih (runImport st op).storage (uniqueKeys_runImport st op h)

theorem runImports_dry (ops : List ImportOp) :
    ∀ (st : Storage), (∀ op ∈ ops, op.dryRun = true) →
      (runImports st ops).1 = st ∧ (runImports st ops).2.length = ops.length := by
  induction ops with
  | nil => intro st _; exact ⟨rfl, rfl⟩
  | cons op ops ih =>
    intro st h
    have hd : op.dryRun = true := h op (List.mem_cons_self op ops)
    have hst : (runImport st op).storage = st := runImport_dryRun_storage st op hd
    have hrest := ih (runImport st op).storage (fun o ho => h o (List.mem_cons_of_mem op ho))
    constructor
    · show (runImports (runImport st op).storage ops).1 = st
      rw [hrest.1, hst]
    · show ((runImport st op).stats :: (runImports (runImport st op).storage ops).2).length
        = ops.length + 1
      rw [List.length_cons, hrest.2]

theorem runImport_update_processed (st : Storage) (records : List Record) (bs : Nat)
    (dr : Bool) :
    (runImport st ⟨records, .update, bs, dr⟩).stats.processed = records.length := rfl

/-- Helper: the §8 scenario run for real (non-dry-run), strategy `update`:
importing `F1` then `F2` sequentially stores exactly the three dates, the
`01-16` row carrying `F2`'s payload. -/
theorem scenario_real_rows (users : List Nat) (u : Nat) (s : String)
    (p1 p2 p3 p4 : Int) (bs : Nat) (hu : u ∈ users) :
    (runImports ⟨users, []⟩
        [⟨scenarioF1 u s p1 p2, .update, bs, false⟩,
         ⟨scenarioF2 u s p3 p4, .update, bs, false⟩]).1.rows
      = [⟨u, 20240115, s, p1⟩, ⟨u, 20240116, s, p3⟩, ⟨u, 20240117, s, p4⟩] := by
  have hu1 : ∀ r ∈ scenarioF1 u s p1 p2, r.user_id ∈ users := by
    intro r hr
    simp only [scenarioF1, List.mem_cons, List.not_mem_nil, or_false] at hr
    rcases hr with rfl | rfl <;> exact hu
  have hu2 : ∀ r ∈ scenarioF2 u s p3 p4, r.user_id ∈ users := by
    intro r hr
    simp only [scenarioF2, List.mem_cons, List.not_mem_nil, or_false] at hr
    rcases hr with rfl | rfl <;> exact hu
  have h1 := runImport_update_ok ⟨users, []⟩ (scenarioF1 u s p1 p2) bs hu1
  have e1 : (runImport ⟨users, []⟩ ⟨scenarioF1 u s p1 p2, .update, bs, false⟩).storage
      = ⟨users, upsertMany [] (scenarioF1 u s p1 p2)⟩ := by rw [h1]
  have h2 := runImport_update_ok ⟨users, upsertMany [] (scenarioF1 u s p1 p2)⟩
      (scenarioF2 u s p3 p4) bs hu2
  show (runImport (runImport ⟨users, []⟩ ⟨scenarioF1 u s p1 p2, .update, bs, false⟩).storage
      ⟨scenarioF2 u s p3 p4, .update, bs, false⟩).storage.rows = _
  rw [e1, h2]
  show upsertMany (upsertMany [] (scenarioF1 u s p1 p2)) (scenarioF2 u s p3 p4) = _
  simp [upsertMany, upsertRow, rowKeys, identityKey, scenarioF1, scenarioF2]

/-! ### Claim theorems -/

/-- Claim C1: for the two §8 scenario files imported sequentially in one
invocation with `dry_run = true`, duplicate detection consults only the
already-persisted storage (which the dry run never mutates), so the reported
`ImportStats.processed` values sum to 4 (2 + 2), diverging from the
non-dry-run stored count of 3. -/
theorem dry_run_two_file_processed_divergence (users : List Nat) (u : Nat) (s : String)
    (p1 p2 p3 p4 : Int) (bs : Nat) (hu : u ∈ users) :
    ((runImports ⟨users, []⟩
        [⟨scenarioF1 u s p1 p2, .update, bs, true⟩,
         ⟨scenarioF2 u s p3 p4, .update, bs, true⟩]).2.map ImportStats.processed).sum = 4
      ∧ (runImports ⟨users, []⟩
          [⟨scenarioF1 u s p1 p2, .update, bs, true⟩,
           ⟨scenarioF2 u s p3 p4, .update, bs, true⟩]).1 = ⟨users, []⟩
      ∧ (runImports ⟨users, []⟩
          [⟨scenarioF1 u s p1 p2, .update, bs, false⟩,
           ⟨scenarioF2 u s p3 p4, .update, bs, false⟩]).1.rows.length = 3 := by
  refine ⟨?_, ?_, ?_⟩
  · simp only [runImports, List.map_cons, List.map_nil, List.sum_cons, List.sum_nil,
      runImport_update_processed]
    simp [scenarioF1, scenarioF2]
  · exact (runImports_dry _ ⟨users, []⟩ (by intro op hop; fin_cases hop <;> rfl)).1
  · rw [scenario_real_rows users u s p1 p2 p3 p4 bs hu]
    rfl

theorem dry_run_two_file_processed_divergence_witness :
    ((runImports ⟨[1], []⟩
        [⟨scenarioF1 1 "zepp" 10 20, .update, 100, true⟩,
         ⟨scenarioF2 1 "zepp" 30 40, .update, 100, true⟩]).2.map ImportStats.processed).sum = 4
      ∧ (runImports ⟨[1], []⟩
          [⟨scenarioF1 1 "zepp" 10 20, .update, 100, true⟩,
           ⟨scenarioF2 1 "zepp" 30 40, .update, 100, true⟩]).1 = ⟨[1], []⟩
      ∧ (runImports ⟨[1], []⟩
          [⟨scenarioF1 1 "zepp" 10 20, .update, 100, false⟩,
           ⟨scenarioF2 1 "zepp" 30 40, .update, 100, false⟩]).1.rows.length = 3 :=
  dry_run_two_file_processed_divergence [1] 1 "zepp" 10 20 30 40 100 (by decide)

/-- Claim C2: after any sequence of import operations (any strategy, any
batch size, dry-run or real), no two persisted records share the composite
identity key; every operation preserves the uniqueness invariant. -/
theorem import_preserves_unique_keys (st : Storage) (ops : List ImportOp)
    (h : UniqueKeys st.rows) : UniqueKeys (runImports st ops).1.rows :=
  uniqueKeys_runImports ops st h

theorem import_preserves_unique_keys_witness :
    UniqueKeys (runImports ⟨[1], []⟩
      [⟨[⟨1, 5, "zepp", 7⟩, ⟨1, 5, "zepp", 8⟩], .update, 2, false⟩,
       ⟨[⟨1, 6, "zepp", 9⟩], .skip, 1, false⟩]).1.rows :=
  import_preserves_unique_keys ⟨[1], []⟩ _ (by decide)

/-- Claim C3: a real (non-dry-run) sequential import of the §8 files `F1`
then `F2` with strategy `update` yields exactly the three rows dated
2024-01-15, 2024-01-16 and 2024-01-17, the 01-16 row carrying `F2`'s
payload (last-write-wins). -/
theorem real_import_last_write_wins (users : List Nat) (u : Nat) (s : String)
    (p1 p2 p3 p4 : Int) (bs : Nat) (hu : u ∈ users) :
    (runImports ⟨users, []⟩
        [⟨scenarioF1 u s p1 p2, .update, bs, false⟩,
         ⟨scenarioF2 u s p3 p4, .update, bs, false⟩]).1.rows
      = [⟨u, 20240115, s, p1⟩, ⟨u, 20240116, s, p3⟩, ⟨u, 20240117, s, p4⟩] :=
  scenario_real_rows users u s p1 p2 p3 p4 bs hu

theorem real_import_last_write_wins_witness :
    (runImports ⟨[1], []⟩
        [⟨scenarioF1 1 "zepp" 10 20, .update, 100, false⟩,
         ⟨scenarioF2 1 "zepp" 30 40, .update, 100, false⟩]).1.rows
      = [⟨1, 20240115, "zepp", 10⟩, ⟨1, 20240116, "zepp", 30⟩, ⟨1, 20240117, "zepp", 40⟩] :=
  real_import_last_write_wins [1] 1 "zepp" 10 20 30 40 100 (by decide)

/-- Claim C4: importing the same file twice (non-dry-run) with strategy
`update` is idempotent with respect to the stored row count: the count after
the second run equals the count after the first run. -/
theorem update_import_idempotent_rowcount (st : Storage) (records : List Record)
    (bs : Nat) (h : ∀ r ∈ records, r.user_id ∈ st.users) :
    (runImport (runImport st ⟨records, .update, bs, false⟩).storage
        ⟨records, .update, bs, false⟩).storage.rows.length
      = (runImport st ⟨records, .update, bs, false⟩).storage.rows.length := by
  have h1 := runImport_update_ok st records bs h
  have e1 : (runImport st ⟨records, .update, bs, false⟩).storage
      = ⟨st.users, upsertMany st.rows records⟩ := by rw [h1]
  have h2 := runImport_update_ok ⟨st.users, upsertMany st.rows records⟩ records bs h
  have e2 : (runImport (⟨st.users, upsertMany st.rows records⟩ : Storage)
        ⟨records, .update, bs, false⟩).storage
      = ⟨st.users, upsertMany (upsertMany st.rows records) records⟩ := by rw [h2]
  rw [e1, e2]
  show (upsertMany (upsertMany st.rows records) records).length
      = (upsertMany st.rows records).length
  exact length_upsertMany_of_mem (fun r hr => mem_rowKeys_upsertMany_of_mem hr)

theorem update_import_idempotent_rowcount_witness :
    (runImport (runImport ⟨[1], []⟩
          ⟨[⟨1, 5, "zepp", 7⟩, ⟨1, 6, "zepp", 8⟩], .update, 1, false⟩).storage
        ⟨[⟨1, 5, "zepp", 7⟩, ⟨1, 6, "zepp", 8⟩], .update, 1, false⟩).storage.rows.length
      = (runImport ⟨[1], []⟩
          ⟨[⟨1, 5, "zepp", 7⟩, ⟨1, 6, "zepp", 8⟩], .update, 1, false⟩).storage.rows.length :=
  update_import_idempotent_rowcount ⟨[1], []⟩ _ 1 (by decide)

/-- Claim C5: under strategy `error`, the presence of any identity-key
collision for a file raises `DuplicateConflictError` before any write for
that file, leaving storage unchanged for that file, while files already
committed earlier in the run remain committed. -/
theorem error_strategy_aborts_file (st : Storage) (ops : List ImportOp)
    (records : List Record) (bs : Nat) (dr : Bool)
    (hcol : ∃ r ∈ records, identityKey r ∈ rowKeys (runImports st ops).1.rows) :
    (runImports st (ops ++ [⟨records, .error, bs, dr⟩])).1 = (runImports st ops).1 ∧
    (runImport (runImports st ops).1 ⟨records, .error, bs, dr⟩).err
        = some .DuplicateConflictError ∧
    (runImport (runImports st ops).1 ⟨records, .error, bs, dr⟩).storage
        = (runImports st ops).1 := by
  have hr := runImport_error_of_collision (runImports st ops).1 records bs dr hcol
  refine ⟨?_, by rw [hr], by rw [hr]⟩
  rw [runImports_append]
  show (runImport (runImports st ops).1 ⟨records, .error, bs, dr⟩).storage = _
  rw [hr]

theorem error_strategy_aborts_file_witness :
    (runImports ⟨[1], []⟩
        ([⟨[⟨1, 5, "zepp", 7⟩], .update, 2, false⟩]
          ++ [⟨[⟨1, 5, "zepp", 9⟩], .error, 2, false⟩])).1
      = (runImports ⟨[1], []⟩ [⟨[⟨1, 5, "zepp", 7⟩], .update, 2, false⟩]).1 ∧
    (runImport (runImports ⟨[1], []⟩ [⟨[⟨1, 5, "zepp", 7⟩], .update, 2, false⟩]).1
        ⟨[⟨1, 5, "zepp", 9⟩], .error, 2, false⟩).err = some .DuplicateConflictError ∧
    (runImport (runImports ⟨[1], []⟩ [⟨[⟨1, 5, "zepp", 7⟩], .update, 2, false⟩]).1
        ⟨[⟨1, 5, "zepp", 9⟩], .error, 2, false⟩).storage
      = (runImports ⟨[1], []⟩ [⟨[⟨1, 5, "zepp", 7⟩], .update, 2, false⟩]).1 :=
  error_strategy_aborts_file ⟨[1], []⟩ _ _ 2 false (by decide)

/-- Claim C6: writing a record whose `user_id` does not pre-exist in the
users table fails with `ReferentialError`, storage is unchanged afterward,
and the writer never auto-creates users (any operation leaves the users
table unchanged). -/
theorem referential_error_missing_user (st : Storage) (r : Record) (bs : Nat)
    (hu : r.user_id ∉ st.users) :
    ((runImport st ⟨[r], .update, bs, false⟩).storage = st ∧
      (runImport st ⟨[r], .update, bs, false⟩).err = some .ReferentialError) ∧
    ∀ op : ImportOp, (runImport st op).storage.users = st.users := by
  have hchunk : chunkList bs [r] = [[r]] := by
    simp [chunkList, chunkListAux]
  have hok : chunkOK st.users [r] = false := by
    simp [chunkOK, hu]
  have hwr : writeChunksFrom st.users 0 st.rows (chunkList bs [r])
      = ⟨st.rows, 0, 0, some (0, firstBadKey st.users [r])⟩ := by
    rw [hchunk]
    simp only [writeChunksFrom]
    rw [if_neg (by simp [hok])]
  refine ⟨⟨?_, ?_⟩, fun op => runImport_users st op⟩
  · simp only [runImport, resolve]
    rw [hwr]
    rfl
  · simp only [runImport, resolve]
    rw [hwr]
    rfl

theorem referential_error_missing_user_witness :
    ((runImport ⟨[1], []⟩ ⟨[⟨2, 5, "zepp", 7⟩], .update, 3, false⟩).storage = ⟨[1], []⟩ ∧
      (runImport ⟨[1], []⟩ ⟨[⟨2, 5, "zepp", 7⟩], .update, 3, false⟩).err
        = some .ReferentialError) ∧
    ∀ op : ImportOp, (runImport ⟨[1], []⟩ op).storage.users = (⟨[1], []⟩ : Storage).users :=
  referential_error_missing_user ⟨[1], []⟩ ⟨2, 5, "zepp", 7⟩ 3 (by decide)

/-- Claim C7: the Batch Writer splits the write-set into chunks of at most
`batch_size` records; each chunk commits atomically, and if chunk `k` (0-based)
is the first failing chunk then chunks before `k` remain committed while
chunks from `k` on are absent from storage. -/
theorem batch_writer_partial_durability (users : List Nat) (rows : List Record)
    (bs : Nat) (ws : List Record) (k : Nat)
    (hbs : 0 < bs)
    (hk : k < (chunkList bs ws).length)
    (hok : ∀ j, j < k → chunkOK users ((chunkList bs ws).getD j []) = true)
    (hfail : chunkOK users ((chunkList bs ws).getD k []) = false) :
    (∀ c ∈ chunkList bs ws, c.length ≤ bs) ∧
    (writeChunksFrom users 0 rows (chunkList bs ws)).rows
      = ((chunkList bs ws).take k).foldl upsertMany rows ∧
    (writeChunksFrom users 0 rows (chunkList bs ws)).failed
      = some (k, firstBadKey users ((chunkList bs ws).getD k [])) := by
  have h := writeChunksFrom_stop k (chunkList bs ws) 0 rows hk hok hfail
  exact ⟨length_le_of_mem_chunkList hbs ws, h.1, by rw [h.2]; simp⟩

theorem batch_writer_partial_durability_witness :
    (∀ c ∈ chunkList 2 [(⟨1, 5, "zepp", 7⟩ : Record), ⟨1, 6, "zepp", 8⟩, ⟨2, 7, "zepp", 9⟩],
      c.length ≤ 2) ∧
    (writeChunksFrom [1] 0 []
        (chunkList 2 [(⟨1, 5, "zepp", 7⟩ : Record), ⟨1, 6, "zepp", 8⟩, ⟨2, 7, "zepp", 9⟩])).rows
      = ((chunkList 2 [(⟨1, 5, "zepp", 7⟩ : Record), ⟨1, 6, "zepp", 8⟩,
          ⟨2, 7, "zepp", 9⟩]).take 1).foldl upsertMany [] ∧
    (writeChunksFrom [1] 0 []
        (chunkList 2 [(⟨1, 5, "zepp", 7⟩ : Record), ⟨1, 6, "zepp", 8⟩, ⟨2, 7, "zepp", 9⟩])).failed
      = some (1, firstBadKey [1]
          ((chunkList 2 [(⟨1, 5, "zepp", 7⟩ : Record), ⟨1, 6, "zepp", 8⟩,
            ⟨2, 7, "zepp", 9⟩]).getD 1 [])) :=
  batch_writer_partial_durability [1] [] 2
    [⟨1, 5, "zepp", 7⟩, ⟨1, 6, "zepp", 8⟩, ⟨2, 7, "zepp", 9⟩] 1
    (by decide) (by decide) (by decide) (by decide)

/-- Claim C8: for every raw sport row whose required fields are present,
`validate_and_coerce` never rejects a negative numeric measurement but clamps
it to exactly zero (a non-negative value is stored unchanged), and the pace
sentinel `-1.0` is normalized to zero during transformation and never stored
raw. -/
theorem sport_validation_clamps_and_scrubs (raw : RawSport) (u t ty : Nat)
    (hreq : raw.user_id = some u ∧ raw.start_time = some t ∧ raw.sport_type = some ty) :
    ∃ rec : SportRecord, validate_and_coerce raw = .ok rec ∧
      (raw.duration_seconds < 0 → rec.duration_seconds = 0) ∧
      (0 ≤ raw.duration_seconds → rec.duration_seconds = raw.duration_seconds) ∧
      (raw.distance_meters < 0 → rec.distance_meters = 0) ∧
      (0 ≤ raw.distance_meters → rec.distance_meters = raw.distance_meters) ∧
      (raw.calories < 0 → rec.calories = 0) ∧
      (0 ≤ raw.calories → rec.calories = raw.calories) ∧
      (raw.avg_pace_per_meter < 0 → rec.avg_pace_per_meter = 0) ∧
      (0 ≤ raw.avg_pace_per_meter → rec.avg_pace_per_meter = raw.avg_pace_per_meter) ∧
      (raw.max_pace_per_meter < 0 → rec.max_pace_per_meter = 0) ∧
      (0 ≤ raw.max_pace_per_meter → rec.max_pace_per_meter = raw.max_pace_per_meter) ∧
      (raw.min_pace_per_meter < 0 → rec.min_pace_per_meter = 0) ∧
      (0 ≤ raw.min_pace_per_meter → rec.min_pace_per_meter = raw.min_pace_per_meter) ∧
      (raw.avg_pace_per_meter = -1 → rec.avg_pace_per_meter = 0) ∧
      (raw.max_pace_per_meter = -1 → rec.max_pace_per_meter = 0) ∧
      (raw.min_pace_per_meter = -1 → rec.min_pace_per_meter = 0) ∧
      0 ≤ rec.duration_seconds ∧ 0 ≤ rec.distance_meters ∧ 0 ≤ rec.calories ∧
      0 ≤ rec.avg_pace_per_meter ∧ 0 ≤ rec.max_pace_per_meter ∧
      0 ≤ rec.min_pace_per_meter := by
  obtain ⟨h1, h2, h3⟩ := hreq
  have hv : validate_and_coerce raw = .ok ⟨u, t, ty,
      clampNonneg raw.duration_seconds, clampNonneg raw.distance_meters,
      clampNonneg raw.calories, clampNonneg (scrubPace raw.avg_pace_per_meter),
      clampNonneg (scrubPace raw.max_pace_per_meter),
      clampNonneg (scrubPace raw.min_pace_per_meter)⟩ := by
    unfold validate_and_coerce
    rw [h1, h2, h3]
  refine ⟨_, hv, ?_, ?_, ?_, ?_, ?_, ?_, ?_, ?_, ?_, ?_, ?_, ?_, ?_, ?_, ?_,
    le_max_right _ _, le_max_right _ _, le_max_right _ _,
    le_max_right _ _, le_max_right _ _, le_max_right _ _⟩
  all_goals intro hp
  all_goals simp only [clampNonneg, scrubPace]
  all_goals omega

theorem sport_validation_clamps_and_scrubs_witness :
    ∃ rec : SportRecord,
      validate_and_coerce ⟨some 1, some 2, some 9, -5, -7, 3, -1, -1, -1⟩ = .ok rec ∧
      ((-5 : Int) < 0 → rec.duration_seconds = 0) ∧
      ((0 : Int) ≤ -5 → rec.duration_seconds = -5) ∧
      ((-7 : Int) < 0 → rec.distance_meters = 0) ∧
      ((0 : Int) ≤ -7 → rec.distance_meters = -7) ∧
      ((3 : Int) < 0 → rec.calories = 0) ∧
      ((0 : Int) ≤ 3 → rec.calories = 3) ∧
      ((-1 : Int) < 0 → rec.avg_pace_per_meter = 0) ∧
      ((0 : Int) ≤ -1 → rec.avg_pace_per_meter = -1) ∧
      ((-1 : Int) < 0 → rec.max_pace_per_meter = 0) ∧
      ((0 : Int) ≤ -1 → rec.max_pace_per_meter = -1) ∧
      ((-1 : Int) < 0 → rec.min_pace_per_meter = 0) ∧
      ((0 : Int) ≤ -1 → rec.min_pace_per_meter = -1) ∧
      ((-1 : Int) = -1 → rec.avg_pace_per_meter = 0) ∧
      ((-1 : Int) = -1 → rec.max_pace_per_meter = 0) ∧
      ((-1 : Int) = -1 → rec.min_pace_per_meter = 0) ∧
      0 ≤ rec.duration_seconds ∧ 0 ≤ rec.distance_meters ∧ 0 ≤ rec.calories ∧
      0 ≤ rec.avg_pace_per_meter ∧ 0 ≤ rec.max_pace_per_meter ∧
      0 ≤ rec.min_pace_per_meter :=
  sport_validation_clamps_and_scrubs ⟨some 1, some 2, some 9, -5, -7, 3, -1, -1, -1⟩
    1 2 9 ⟨rfl, rfl, rfl⟩

/-- Claim C9: any sequence of import operations executed with
`dry_run = true` leaves persisted storage unchanged — no commit is performed
— while one `ImportStats` record per operation is still returned. -/
theorem dry_run_non_mutation (st : Storage) (ops : List ImportOp)
    (h : ∀ op ∈ ops, op.dryRun = true) :
    (runImports st ops).1 = st ∧ (runImports st ops).2.length = ops.length :=
  runImports_dry ops st h

theorem dry_run_non_mutation_witness :
    (runImports ⟨[1], [⟨1, 4, "zepp", 3⟩]⟩
        [⟨[⟨1, 5, "zepp", 7⟩], .update, 2, true⟩,
         ⟨[⟨1, 4, "zepp", 9⟩], .skip, 1, true⟩]).1 = ⟨[1], [⟨1, 4, "zepp", 3⟩]⟩ ∧
    (runImports ⟨[1], [⟨1, 4, "zepp", 3⟩]⟩
        [⟨[⟨1, 5, "zepp", 7⟩], .update, 2, true⟩,
         ⟨[⟨1, 4, "zepp", 9⟩], .skip, 1, true⟩]).2.length = 2 :=
  dry_run_non_mutation ⟨[1], [⟨1, 4, "zepp", 3⟩]⟩ _ (by decide)

/-- Claim C10: a sport record written without an explicit `data_source`
value receives the schema default `'zepp'` (column declared
`TEXT NOT NULL DEFAULT 'zepp'`), so its identity key is computed with the
source `'zepp'`. -/
theorem sport_default_data_source_key (u t : Nat) (p : Int) :
    (mkSportRecord u t p none).data_source = "zepp" ∧
    identityKey (mkSportRecord u t p none) = (u, t, "zepp") :=
  ⟨rfl, rfl⟩

end HealthDB
